import Mathlib

/-!
Verification of the mercury asynchronously-flushing buffered writer
(`mercury.go`, `bufio.go`).

The embedding models:
* the external sink (an `io.Writer`) as a deterministic state machine whose
  schedule dictates the outcome of each successive `Write` call — either all
  bytes are accepted, or none are and an error is returned (matching the
  failing sinks used by the repository's own tests);
* `bufio.Writer` (fields `err`, `buf`/`n`, underlying writer) with its
  `Available`, `Buffered`, `Flush` and `Write` methods, the latter via a
  fuel-bounded loop (the Go loop performs at most three iterations under this
  sink model, so the fuel `p.length + 4` is never exhausted);
* the mercury `Writer` with its deferred error slot, armed flag, timer and the
  four statistics counters (process-global atomics in Go, carried in the state
  here).  The `*time.Timer` is modelled by a three-state value: `idle`
  (stopped or expired-and-handled), `pending` (armed, not yet fired — `Stop`
  and `Reset` succeed), `fired` (the timer fired but the callback has not yet
  run, so `Stop` returns false).  Timer firing and the callback execution are
  separate steps of the transition system, which makes the fire/cancel race
  expressible.
-/

namespace Mercury

/-- Errors produced by the sink, plus the short-write error that
`bufio.Writer.Flush` synthesizes itself. -/
inductive Err where
  | shortWrite
  | sinkErr (code : Nat)
deriving DecidableEq

/-- The external sink (`io.Writer`).  `sched.getD calls none` gives the
outcome of the next `Write` call: `none` means all bytes are accepted,
`some e` means no byte is accepted and `e` is returned.  An exhausted
schedule accepts everything. -/
structure Sink where
  sched : List (Option Err)
  calls : Nat
  received : List Nat
deriving DecidableEq

/-- One `Write` call on the sink: returns accepted count, error, new sink. -/
def Sink.writeS (s : Sink) (p : List Nat) : Nat × Option Err × Sink :=
  match s.sched.getD s.calls none with
  | some e => (0, some e, { s with calls := s.calls + 1 })
  | none => (p.length, none, { s with calls := s.calls + 1, received := s.received ++ p })

/-- `bufio.Writer`: `err` is the sticky error, `size` the capacity
(`len(b.buf)` in Go), `buf` the occupied portion (`b.buf[0:b.n]`). -/
structure BW where
  err : Option Err
  size : Nat
  buf : List Nat
  sink : Sink
deriving DecidableEq

/-- `bufio.Writer.Available`. -/
def BW.Available (b : BW) : Nat := b.size - b.buf.length

/-- `bufio.Writer.Buffered`. -/
def BW.Buffered (b : BW) : Nat := b.buf.length

/-- `bufio.Writer.Flush`: writes the buffered bytes to the sink; on error the
unwritten remainder stays buffered and the error becomes sticky. -/
def BW.Flush (b : BW) : Option Err × BW :=
  match b.err with
  | some e => (some e, b)
  | none =>
    if b.buf.length = 0 then (none, b)
    else
      let r := b.sink.writeS b.buf
      let e := if r.1 < b.buf.length ∧ r.2.1 = none then some Err.shortWrite else r.2.1
      match e with
      | some e' => (some e', { b with buf := b.buf.drop r.1, err := some e', sink := r.2.2 })
      | none => (none, { b with buf := [], sink := r.2.2 })

/-- The code after the loop in `bufio.Writer.Write`: report a sticky error,
otherwise copy the remaining bytes into the buffer. -/
def BW.writeFin (b : BW) (p : List Nat) : Nat × Option Err × BW :=
  match b.err with
  | some e => (0, some e, b)
  | none =>
    let n := min b.Available p.length
    (n, none, { b with buf := b.buf ++ p.take n })

/-- The loop of `bufio.Writer.Write` (guard: `len(p) > b.Available() && b.err
== nil`).  On an empty buffer the bytes are written directly to the sink;
otherwise the buffer is topped up and flushed.  `fuel` bounds the iteration
count; `p.length + 4` always suffices under this sink model. -/
def BW.writeGo : Nat → BW → List Nat → Nat × Option Err × BW
  | 0, b, p => BW.writeFin b p
  | fuel + 1, b, p =>
    if p.length > b.Available ∧ b.err = none then
      if b.buf.length = 0 then
        let r := b.sink.writeS p
        let b' : BW := { b with err := r.2.1, sink := r.2.2 }
        let rest := BW.writeGo fuel b' (p.drop r.1)
        (r.1 + rest.1, rest.2.1, rest.2.2)
      else
        let m := min b.Available p.length
        let b1 : BW := { b with buf := b.buf ++ p.take m }
        let b2 := (BW.Flush b1).2
        let rest := BW.writeGo fuel b2 (p.drop m)
        (m + rest.1, rest.2.1, rest.2.2)
    else BW.writeFin b p

/-- `bufio.Writer.Write`. -/
def BW.writeB (b : BW) (p : List Nat) : Nat × Option Err × BW :=
  BW.writeGo (p.length + 4) b p

/-- `bufio.NewWriterSize` (fields only; the Go minimum-size adjustment is left
to the caller). -/
def BW.new (sink : Sink) (size : Nat) : BW :=
  { err := none, size := size, buf := [], sink := sink }

/-- `Write` from `src/bufio.go`: write using the buffered writer and return
whether it flushed during the write (`n > a` with `a` the bytes available
before the call). -/
def Write (w : BW) (p : List Nat) : Nat × Bool × Option Err × BW :=
  let a := w.Available
  let r := w.writeB p
  (r.1, decide (r.1 > a), r.2.1, r.2.2)

/-- Status of the `*time.Timer` owned by a writer.  `Stop` succeeds (returns
true) exactly on `pending`; `Reset` moves to `pending`. -/
inductive TimerState where
  | idle
  | pending
  | fired
deriving DecidableEq

/-- The mercury `Writer` (`src/mercury.go`).  `queue` is the vestigial field
of the Go struct, never read or written by the current code.  The four
counters are the package-level atomics `initiated`, `executed`, `extended`,
`cancelled`. -/
structure Writer where
  delay : Nat
  queue : Nat
  writer : BW
  timer : TimerState
  armed : Bool
  err : Option Err
  initiated : Nat
  executed : Nat
  extended : Nat
  cancelled : Nat
deriving DecidableEq

/-- `newWriter`: wraps a fresh buffered writer; the timer is created stopped. -/
def newWriter (sink : Sink) (size delay : Nat) : Writer :=
  { delay := delay, queue := 0, writer := BW.new sink size,
    timer := TimerState.idle, armed := false, err := none,
    initiated := 0, executed := 0, extended := 0, cancelled := 0 }

/-- The timer-management tail of `Writer.write` (lines 158-188 of
`mercury.go`): arm the timer if data is buffered, otherwise try to cancel it,
otherwise extend it after a flush.  `w.timer.Stop()` returns true iff the
timer is `pending`; `Reset` sets it `pending`. -/
def Writer.writeTail (w : Writer) (n : Nat) (flushed : Bool) : Nat × Option Err × Writer :=
  let buffered := w.writer.Buffered
  if buffered > 0 ∧ w.armed = false then
    (n, none, { w with initiated := w.initiated + 1, timer := TimerState.pending, armed := true })
  else if buffered = 0 ∧ w.armed = true then
    if w.timer = TimerState.pending then
      (n, none, { w with cancelled := w.cancelled + 1, timer := TimerState.idle, armed := false })
    else (n, none, w)
  else if flushed = true ∧ w.armed = true then
    if w.timer = TimerState.pending then
      (n, none, { w with extended := w.extended + 1, timer := TimerState.pending })
    else (n, none, w)
  else (n, none, w)

/-- The `write data if available` block of `Writer.write` (`mercury.go` lines
129-144): when `len(p) > 0` write through the buffered writer, otherwise `n`
and `err` keep their zero values. -/
def Writer.bwRes (w : Writer) (p : List Nat) : Nat × Option Err × BW :=
  if p.length > 0 then w.writer.writeB p else (0, none, w.writer)

/-- `Writer.write` (`mercury.go` lines 117-189): deliver a pending deferred
error, otherwise write the data, flush if requested or the delay is zero, and
run the timer logic.  The mutex makes the whole body atomic, which the
functional presentation reflects. -/
def Writer.write (w : Writer) (p : List Nat) (flush : Bool) : Nat × Option Err × Writer :=
  match w.err with
  | some e => (0, some e, { w with err := none })
  | none =>
    let a := w.writer.Available
    let r := w.bwRes p
    match r.2.1 with
    | some e => (r.1, some e, { w with writer := r.2.2 })
    | none =>
      let flushed := decide (p.length > 0) && decide (r.1 > a)
      let w1 : Writer := { w with writer := r.2.2 }
      if flush = true ∨ w1.delay = 0 then
        match w1.writer.Flush with
        | (some e, bw) => (r.1, some e, { w1 with writer := bw })
        | (none, bw) => Writer.writeTail { w1 with writer := bw } r.1 true
      else Writer.writeTail w1 r.1 flushed

/-- Public `Write`. -/
def Writer.Write (w : Writer) (p : List Nat) : Nat × Option Err × Writer :=
  w.write p false

/-- Public `Flush`. -/
def Writer.Flush (w : Writer) : Option Err × Writer :=
  let r := w.write [] true
  (r.2.1, r.2.2)

/-- Public `WriteAndFlush`. -/
def Writer.WriteAndFlush (w : Writer) (p : List Nat) : Nat × Option Err × Writer :=
  w.write p true

/-- `SetMaxDelay` (an atomic store, no mutex). -/
def Writer.SetMaxDelay (w : Writer) (d : Nat) : Writer :=
  { w with delay := d }

/-- The timer-fired callback `flush` (`mercury.go` lines 191-207): count the
flush, clear `armed`, flush the buffer, store the error only when the slot is
empty. -/
def Writer.flushCB (w : Writer) : Writer :=
  let w1 : Writer := { w with executed := w.executed + 1 }
  let w2 : Writer := { w1 with armed := false }
  let r := w2.writer.Flush
  { w2 with writer := r.2, err := if r.1 ≠ none ∧ w2.err = none then r.1 else w2.err }

/-- Operations of the transition system: the three public calls,
`SetMaxDelay`, the timer firing (moving it from `pending` to `fired`), and
the queued callback getting to run. -/
inductive Op where
  | write (p : List Nat)
  | flush
  | writeAndFlush (p : List Nat)
  | setMaxDelay (d : Nat)
  | fire
  | runCallback

/-- One step.  `fire` and `runCallback` are no-ops unless enabled (`pending`
resp. `fired`); a `runCallback` retires the fired timer and executes the
callback body. -/
def step (s : Writer) : Op → Writer
  | Op.write p => (s.write p false).2.2
  | Op.flush => (s.write [] true).2.2
  | Op.writeAndFlush p => (s.write p true).2.2
  | Op.setMaxDelay d => s.SetMaxDelay d
  | Op.fire => if s.timer = TimerState.pending then { s with timer := TimerState.fired } else s
  | Op.runCallback =>
    if s.timer = TimerState.fired then Writer.flushCB { s with timer := TimerState.idle } else s

/-- Run a sequence of operations. -/
def run (s : Writer) : List Op → Writer
  | [] => s
  | op :: ops => run (step s op) ops

/-- The bytes a single operation gets the writer to accept. -/
def acceptedOf (s : Writer) : Op → List Nat
  | Op.write p => p.take (s.write p false).1
  | Op.writeAndFlush p => p.take (s.write p true).1
  | Op.flush => []
  | Op.setMaxDelay _ => []
  | Op.fire => []
  | Op.runCallback => []

/-- All bytes accepted along a run, in acceptance order. -/
def runAccepted (s : Writer) : List Op → List Nat
  | [] => []
  | op :: ops => acceptedOf s op ++ runAccepted (step s op) ops

/-- Bytes at the sink followed by the bytes still buffered. -/
def BW.trace (b : BW) : List Nat := b.sink.received ++ b.buf

/-- Same, for the full writer state. -/
def Writer.trace (s : Writer) : List Nat := s.writer.trace

/-- Well-formedness tying the armed flag to the timer object: the flag is
clear exactly when the timer is stopped/expired-and-handled. -/
abbrev WF (s : Writer) : Prop := s.armed = false ↔ s.timer = TimerState.idle

/-- A quiescent error-free state: no sticky accumulator error is recorded and
no fired timer callback is awaiting execution. -/
abbrev GoodW (s : Writer) : Prop :=
  s.writer.err = none ∧ s.timer ≠ TimerState.fired

/-- The buffer-occupancy invariant: armed implies data buffered, unarmed
implies the buffer is empty. -/
abbrev ArmedBuf (s : Writer) : Prop :=
  (s.armed = true → 0 < s.writer.buf.length) ∧
  (s.armed = false → s.writer.buf.length = 0)

/-- The inductive state invariant: well-formedness, a pending deferred error
always comes with a sticky accumulator error, and quiescent error-free states
satisfy the buffer-occupancy invariant. -/
abbrev InvS (s : Writer) : Prop :=
  WF s ∧ (s.err ≠ none → s.writer.err ≠ none) ∧ (GoodW s → ArmedBuf s)

/-- An always-succeeding sink that has received nothing yet. -/
def goodSink : Sink := { sched := [], calls := 0, received := [] }

/-- A sink whose first write fails; later writes succeed. -/
def failSink : Sink := { sched := [some (Err.sinkErr 0)], calls := 0, received := [] }

/-- A writer whose timer has fired while the vestigial queue counter reads 2,
with one byte buffered. -/
def stateC3 : Writer :=
  { delay := 3, queue := 2,
    writer := { err := none, size := 4, buf := [7], sink := goodSink },
    timer := TimerState.fired, armed := true, err := none,
    initiated := 1, executed := 0, extended := 0, cancelled := 0 }

/-- The writer obtained after `WriteAndFlush [1]` on a fresh writer. -/
def stateWAF1 : Writer := ((newWriter goodSink 16 5).WriteAndFlush [1]).2.2

/-- A fresh writer carrying a deferred error. -/
def stateErr : Writer := { newWriter goodSink 4 3 with err := some (Err.sinkErr 7) }

/-- A fresh writer over the failing sink after `WriteAndFlush [1]`: the flush
failed synchronously, leaving the byte buffered. -/
def stateC2 : Writer := ((newWriter failSink 4 3).write [1] true).2.2

/-- Armed writer whose delay was then set to zero and whose timer has fired. -/
def stateC5 : Writer := run (newWriter goodSink 4 3) [Op.write [1], Op.setMaxDelay 0, Op.fire]

/-- State after a direct-write failure on a size-1 accumulator: empty buffer
but a recorded sticky error. -/
def stateC10 : Writer := ((newWriter failSink 1 3).write [9, 9] false).2.2

/-- Armed writer with one byte buffered in a size-2 accumulator. -/
def stateC7 : Writer := ((newWriter goodSink 2 5).write [1] false).2.2

/-- Armed writer over the failing sink whose timer has fired. -/
def stateC9 : Writer := run (newWriter failSink 4 3) [Op.write [1], Op.fire]

/-- A small accumulator holding one byte over the good sink. -/
def bwC4 : BW := { err := none, size := 2, buf := [1], sink := goodSink }

/-- A writer with an error-free slot whose accumulator flush will fail. -/
def stateC1v : Writer :=
  { delay := 3, queue := 0,
    writer := { err := none, size := 4, buf := [5], sink := failSink },
    timer := TimerState.idle, armed := false, err := none,
    initiated := 0, executed := 0, extended := 0, cancelled := 0 }

theorem Sink.writeS_fail (s : Sink) (p : List Nat) (e : Err)
    (hs : s.sched.getD s.calls none = some e) :
    s.writeS p = (0, some e, { s with calls := s.calls + 1 }) := by
  unfold Sink.writeS; rw [hs]

theorem Sink.writeS_ok (s : Sink) (p : List Nat)
    (hs : s.sched.getD s.calls none = none) :
    s.writeS p = (p.length, none,
      { s with calls := s.calls + 1, received := s.received ++ p }) := by
  unfold Sink.writeS; rw [hs]

theorem Sink.writeS_received (s : Sink) (p : List Nat) :
    ((s.writeS p).2.2).received = s.received ++ p.take (s.writeS p).1 := by
  unfold Sink.writeS
  cases hs : s.sched.getD s.calls none <;> simp

theorem Sink.writeS_sched (s : Sink) (p : List Nat) :
    ((s.writeS p).2.2).sched = s.sched := by
  unfold Sink.writeS
  cases hs : s.sched.getD s.calls none <;> simp

theorem BW.Flush_sticky (b : BW) (e : Err) (hb : b.err = some e) :
    BW.Flush b = (some e, b) := by
  unfold BW.Flush; rw [hb]

theorem BW.Flush_empty (b : BW) (hb : b.err = none) (h0 : b.buf.length = 0) :
    BW.Flush b = (none, b) := by
  unfold BW.Flush; rw [hb, if_pos h0]

theorem BW.Flush_fail (b : BW) (e : Err) (hb : b.err = none) (h0 : ¬ b.buf.length = 0)
    (hs : b.sink.sched.getD b.sink.calls none = some e) :
    BW.Flush b = (some e,
      { b with
          err := some e,
          sink := { b.sink with calls := b.sink.calls + 1 } }) := by
  unfold BW.Flush
  rw [hb, if_neg h0, Sink.writeS_fail _ _ _ hs]
  simp

theorem BW.Flush_ok (b : BW) (hb : b.err = none) (h0 : ¬ b.buf.length = 0)
    (hs : b.sink.sched.getD b.sink.calls none = none) :
    BW.Flush b = (none,
      { b with
          buf := [],
          sink := { b.sink with
                      calls := b.sink.calls + 1,
                      received := b.sink.received ++ b.buf } }) := by
  unfold BW.Flush
  rw [hb, if_neg h0, Sink.writeS_ok _ _ hs]
  simp

theorem BW.Flush_trace (b : BW) : ((BW.Flush b).2).trace = b.trace := by
  cases hb : b.err with
  | some e => rw [BW.Flush_sticky b e hb]
  | none =>
    by_cases h0 : b.buf.length = 0
    · rw [BW.Flush_empty b hb h0]
    · cases hs : b.sink.sched.getD b.sink.calls none with
      | some e => rw [BW.Flush_fail b e hb h0 hs]; simp [BW.trace]
      | none => rw [BW.Flush_ok b hb h0 hs]; simp [BW.trace]

theorem BW.Flush_none_buf (b : BW) (h : (BW.Flush b).1 = none) :
    ((BW.Flush b).2).buf = [] := by
  cases hb : b.err with
  | some e => rw [BW.Flush_sticky b e hb] at h; simp at h
  | none =>
    by_cases h0 : b.buf.length = 0
    · rw [BW.Flush_empty b hb h0]; exact List.length_eq_zero.mp h0
    · cases hs : b.sink.sched.getD b.sink.calls none with
      | some e => rw [BW.Flush_fail b e hb h0 hs] at h; simp at h
      | none => rw [BW.Flush_ok b hb h0 hs]

theorem BW.Flush_err_sticky (b : BW) (e : Err) (h : (BW.Flush b).1 = some e) :
    ((BW.Flush b).2).err = some e := by
  cases hb : b.err with
  | some e' => rw [BW.Flush_sticky b e' hb] at h; simp at h; simp [BW.Flush_sticky b e' hb, hb, h]
  | none =>
    by_cases h0 : b.buf.length = 0
    · rw [BW.Flush_empty b hb h0] at h; simp at h
    · cases hs : b.sink.sched.getD b.sink.calls none with
      | some e' => rw [BW.Flush_fail b e' hb h0 hs] at h ⊢; simp at h; simp [h]
      | none => rw [BW.Flush_ok b hb h0 hs] at h; simp at h

theorem BW.Flush_err_frame (b : BW) (e : Err) (h : (BW.Flush b).1 = some e) :
    ((BW.Flush b).2).buf = b.buf ∧ ((BW.Flush b).2).sink.received = b.sink.received := by
  cases hb : b.err with
  | some e' => rw [BW.Flush_sticky b e' hb]; exact ⟨rfl, rfl⟩
  | none =>
    by_cases h0 : b.buf.length = 0
    · rw [BW.Flush_empty b hb h0] at h; simp at h
    · cases hs : b.sink.sched.getD b.sink.calls none with
      | some e' => rw [BW.Flush_fail b e' hb h0 hs]; exact ⟨rfl, rfl⟩
      | none => rw [BW.Flush_ok b hb h0 hs] at h; simp at h

theorem BW.Flush_none_err (b : BW) (h : (BW.Flush b).1 = none) :
    ((BW.Flush b).2).err = none := by
  cases hb : b.err with
  | some e => rw [BW.Flush_sticky b e hb] at h; simp at h
  | none =>
    by_cases h0 : b.buf.length = 0
    · rw [BW.Flush_empty b hb h0]; exact hb
    · cases hs : b.sink.sched.getD b.sink.calls none with
      | some e => rw [BW.Flush_fail b e hb h0 hs] at h; simp at h
      | none => rw [BW.Flush_ok b hb h0 hs]; exact hb

theorem BW.writeFin_trace (b : BW) (p : List Nat) :
    ((BW.writeFin b p).2.2).trace = b.trace ++ p.take (BW.writeFin b p).1 := by
  unfold BW.writeFin
  cases hb : b.err with
  | some e => simp [BW.trace]
  | none => simp [BW.trace, List.append_assoc]

theorem BW.writeFin_err (b : BW) (p : List Nat) :
    (BW.writeFin b p).2.1 = ((BW.writeFin b p).2.2).err := by
  unfold BW.writeFin
  cases hb : b.err <;> simp [hb]

theorem BW.writeGo_trace (fuel : Nat) : ∀ (b : BW) (p : List Nat),
    ((BW.writeGo fuel b p).2.2).trace = b.trace ++ p.take (BW.writeGo fuel b p).1 := by
  induction fuel with
  | zero => exact fun b p => BW.writeFin_trace b p
  | succ fuel ih =>
    intro b p
    show ((BW.writeGo (fuel + 1) b p).2.2).trace = _
    unfold BW.writeGo
    by_cases hg : p.length > b.Available ∧ b.err = none
    · rw [if_pos hg]
      by_cases h0 : b.buf.length = 0
      · rw [if_pos h0]
        have hbuf : b.buf = [] := List.length_eq_zero.mp h0
        simp only []
        rw [ih]
        have htr : ({ b with err := (b.sink.writeS p).2.1, sink := (b.sink.writeS p).2.2 } : BW).trace
            = b.trace ++ p.take (b.sink.writeS p).1 := by
          simp [BW.trace, hbuf, Sink.writeS_received]
        rw [htr, List.append_assoc, ← List.take_add]
      · rw [if_neg h0]
        simp only []
        rw [ih]
        have htr : ((BW.Flush { b with buf := b.buf ++ p.take (min b.Available p.length) }).2).trace
            = b.trace ++ p.take (min b.Available p.length) := by
          rw [BW.Flush_trace]
          simp [BW.trace, List.append_assoc]
        rw [htr, List.append_assoc, ← List.take_add]
    · rw [if_neg hg]
      exact BW.writeFin_trace b p

theorem BW.writeGo_err (fuel : Nat) : ∀ (b : BW) (p : List Nat),
    (BW.writeGo fuel b p).2.1 = ((BW.writeGo fuel b p).2.2).err := by
  induction fuel with
  | zero => exact fun b p => BW.writeFin_err b p
  | succ fuel ih =>
    intro b p
    unfold BW.writeGo
    by_cases hg : p.length > b.Available ∧ b.err = none
    · rw [if_pos hg]
      by_cases h0 : b.buf.length = 0
      · rw [if_pos h0]; simpa using ih _ _
      · rw [if_neg h0]; simpa using ih _ _
    · rw [if_neg hg]
      exact BW.writeFin_err b p

theorem BW.writeB_trace (b : BW) (p : List Nat) :
    ((b.writeB p).2.2).trace = b.trace ++ p.take (b.writeB p).1 :=
  BW.writeGo_trace _ b p

theorem BW.writeB_err (b : BW) (p : List Nat) :
    (b.writeB p).2.1 = ((b.writeB p).2.2).err :=
  BW.writeGo_err _ b p

theorem Writer.bwRes_nil (w : Writer) : w.bwRes [] = (0, none, w.writer) := by
  simp [Writer.bwRes]

theorem Writer.bwRes_pos (w : Writer) (p : List Nat) (hp : 0 < p.length) :
    w.bwRes p = w.writer.writeB p := by
  simp [Writer.bwRes, hp]

theorem Writer.write_deferred (w : Writer) (p : List Nat) (f : Bool) (e : Err)
    (hw : w.err = some e) :
    w.write p f = (0, some e, { w with err := none }) := by
  unfold Writer.write; rw [hw]

theorem Writer.write_bwerr (w : Writer) (p : List Nat) (f : Bool) (e : Err)
    (hw : w.err = none) (hr : (w.bwRes p).2.1 = some e) :
    w.write p f = ((w.bwRes p).1, some e, { w with writer := (w.bwRes p).2.2 }) := by
  unfold Writer.write
  rw [hw]
  simp only [hr]

theorem Writer.write_flusherr (w : Writer) (p : List Nat) (f : Bool) (e : Err) (bw : BW)
    (hw : w.err = none) (hr : (w.bwRes p).2.1 = none)
    (hc : f = true ∨ w.delay = 0)
    (hf : BW.Flush (w.bwRes p).2.2 = (some e, bw)) :
    w.write p f = ((w.bwRes p).1, some e, { w with writer := bw }) := by
  unfold Writer.write
  rw [hw]
  simp only [hr]
  rw [if_pos hc, hf]

theorem Writer.write_flushok (w : Writer) (p : List Nat) (f : Bool) (bw : BW)
    (hw : w.err = none) (hr : (w.bwRes p).2.1 = none)
    (hc : f = true ∨ w.delay = 0)
    (hf : BW.Flush (w.bwRes p).2.2 = (none, bw)) :
    w.write p f = Writer.writeTail { w with writer := bw } (w.bwRes p).1 true := by
  unfold Writer.write
  rw [hw]
  simp only [hr]
  rw [if_pos hc, hf]

theorem Writer.write_noflush (w : Writer) (p : List Nat) (f : Bool)
    (hw : w.err = none) (hr : (w.bwRes p).2.1 = none)
    (hc : ¬ (f = true ∨ w.delay = 0)) :
    w.write p f = Writer.writeTail { w with writer := (w.bwRes p).2.2 } (w.bwRes p).1
      (decide (p.length > 0) && decide ((w.bwRes p).1 > w.writer.Available)) := by
  unfold Writer.write
  rw [hw]
  simp only [hr]
  rw [if_neg hc]

theorem Writer.writeTail_frame (w : Writer) (n : Nat) (f : Bool) :
    (w.writeTail n f).1 = n ∧ (w.writeTail n f).2.1 = none ∧
    ((w.writeTail n f).2.2).writer = w.writer ∧ ((w.writeTail n f).2.2).err = w.err ∧
    ((w.writeTail n f).2.2).executed = w.executed ∧
    ((w.writeTail n f).2.2).delay = w.delay ∧ ((w.writeTail n f).2.2).queue = w.queue := by
  unfold Writer.writeTail
  dsimp only
  repeat' split
  all_goals exact ⟨rfl, rfl, rfl, rfl, rfl, rfl, rfl⟩

theorem Writer.bwRes_trace (w : Writer) (p : List Nat) :
    ((w.bwRes p).2.2).trace = w.writer.trace ++ p.take (w.bwRes p).1 := by
  by_cases hp : 0 < p.length
  · rw [Writer.bwRes_pos w p hp]; exact BW.writeB_trace _ _
  · have hp0 : p = [] := List.length_eq_zero.mp (Nat.eq_zero_of_not_pos hp)
    subst hp0
    rw [Writer.bwRes_nil]
    simp

theorem Writer.bwRes_err (w : Writer) (p : List Nat) :
    (w.bwRes p).2.1 = ((w.bwRes p).2.2).err ∨ ((w.bwRes p).2.2 = w.writer ∧ (w.bwRes p).2.1 = none) := by
  by_cases hp : 0 < p.length
  · rw [Writer.bwRes_pos w p hp]; exact Or.inl (BW.writeB_err _ _)
  · have hp0 : p = [] := List.length_eq_zero.mp (Nat.eq_zero_of_not_pos hp)
    subst hp0
    rw [Writer.bwRes_nil]
    exact Or.inr ⟨rfl, rfl⟩

theorem Writer.write_trace (w : Writer) (p : List Nat) (f : Bool) :
    ((w.write p f).2.2).trace = w.trace ++ p.take (w.write p f).1 := by
  cases hw : w.err with
  | some e =>
    rw [Writer.write_deferred w p f e hw]
    simp [Writer.trace]
  | none =>
    cases hr : (w.bwRes p).2.1 with
    | some e =>
      rw [Writer.write_bwerr w p f e hw hr]
      show ((w.bwRes p).2.2).trace = w.writer.trace ++ p.take (w.bwRes p).1
      exact Writer.bwRes_trace w p
    | none =>
      by_cases hc : f = true ∨ w.delay = 0
      · rcases hfl : BW.Flush (w.bwRes p).2.2 with ⟨eo, bw⟩
        have hbt : bw.trace = w.writer.trace ++ p.take (w.bwRes p).1 := by
          have h1 := BW.Flush_trace (w.bwRes p).2.2
          rw [hfl] at h1
          rw [h1]
          exact Writer.bwRes_trace w p
        cases eo with
        | some e =>
          rw [Writer.write_flusherr w p f e bw hw hr hc hfl]
          exact hbt
        | none =>
          rw [Writer.write_flushok w p f bw hw hr hc hfl]
          rcases Writer.writeTail_frame { w with writer := bw } (w.bwRes p).1 true with
            ⟨h1, _, h3, _⟩
          show ((Writer.writeTail { w with writer := bw } (w.bwRes p).1 true).2.2).writer.trace = _
          rw [h3, h1]
          exact hbt
      · rw [Writer.write_noflush w p f hw hr hc]
        rcases Writer.writeTail_frame { w with writer := (w.bwRes p).2.2 } (w.bwRes p).1
            (decide (p.length > 0) && decide ((w.bwRes p).1 > w.writer.Available)) with
          ⟨h1, _, h3, _⟩
        show ((Writer.writeTail { w with writer := (w.bwRes p).2.2 } (w.bwRes p).1
            (decide (p.length > 0) && decide ((w.bwRes p).1 > w.writer.Available))).2.2).writer.trace = _
        rw [h3, h1]
        exact Writer.bwRes_trace w p

theorem Writer.flushCB_trace (w : Writer) : (w.flushCB).trace = w.trace := by
  show (BW.Flush w.writer).2.trace = w.writer.trace
  exact BW.Flush_trace w.writer

theorem step_trace (s : Writer) (op : Op) :
    (step s op).trace = s.trace ++ acceptedOf s op := by
  cases op with
  | write p => exact Writer.write_trace s p false
  | flush =>
    show ((s.write [] true).2.2).trace = _
    rw [Writer.write_trace]
    simp [acceptedOf]
  | writeAndFlush p => exact Writer.write_trace s p true
  | setMaxDelay d => simp [step, acceptedOf, Writer.SetMaxDelay, Writer.trace]
  | fire =>
    show (if s.timer = TimerState.pending then { s with timer := TimerState.fired } else s).trace = _
    split <;> simp [acceptedOf, Writer.trace]
  | runCallback =>
    show (if s.timer = TimerState.fired then
        Writer.flushCB { s with timer := TimerState.idle } else s).trace = _
    split
    · rw [Writer.flushCB_trace]
      simp [acceptedOf, Writer.trace]
    · simp [acceptedOf]

theorem run_trace (s : Writer) (ops : List Op) :
    (run s ops).trace = s.trace ++ runAccepted s ops := by
  induction ops generalizing s with
  | nil => simp [run, runAccepted]
  | cons op ops ih =>
    show (run (step s op) ops).trace = _
    rw [ih, step_trace, runAccepted, List.append_assoc]

theorem invS_writeTail (w : Writer) (n : Nat) (fl : Bool)
    (hwf : WF w) (herr : w.err ≠ none → w.writer.err ≠ none) :
    InvS ((w.writeTail n fl).2.2) := by
  unfold Writer.writeTail
  dsimp only
  by_cases h1 : w.writer.Buffered > 0 ∧ w.armed = false
  · rw [if_pos h1]
    refine ⟨by simp [WF], herr, fun _ => ⟨fun _ => h1.1, fun hfa => by simp at hfa⟩⟩
  · rw [if_neg h1]
    by_cases h2 : w.writer.Buffered = 0 ∧ w.armed = true
    · rw [if_pos h2]
      by_cases ht : w.timer = TimerState.pending
      · rw [if_pos ht]
        refine ⟨by simp [WF], herr, fun _ => ⟨fun habs => by simp at habs, fun _ => h2.1⟩⟩
      · rw [if_neg ht]
        refine ⟨hwf, herr, fun hg => ?_⟩
        exfalso
        have hid : w.timer = TimerState.idle := by
          cases htt : w.timer
          · rfl
          · exact absurd htt ht
          · exact absurd htt hg.2
        have hfa := hwf.mpr hid
        rw [h2.2] at hfa
        exact absurd hfa (by simp)
    · rw [if_neg h2]
      by_cases h3 : fl = true ∧ w.armed = true
      · rw [if_pos h3]
        by_cases ht : w.timer = TimerState.pending
        · rw [if_pos ht]
          refine ⟨by simp [WF, h3.2], herr, fun _ => ⟨fun _ => ?_, fun hfa => ?_⟩⟩
          · exact Nat.pos_of_ne_zero (fun hz => h2 ⟨hz, h3.2⟩)
          · rw [h3.2] at hfa; simp at hfa
        · rw [if_neg ht]
          refine ⟨hwf, herr, fun hg => ?_⟩
          exfalso
          have hid : w.timer = TimerState.idle := by
            cases htt : w.timer
            · rfl
            · exact absurd htt ht
            · exact absurd htt hg.2
          have hfa := hwf.mpr hid
          rw [h3.2] at hfa
          exact absurd hfa (by simp)
      · rw [if_neg h3]
        refine ⟨hwf, herr, fun _ => ⟨fun hat => ?_, fun hfa => ?_⟩⟩
        · exact Nat.pos_of_ne_zero (fun hz => h2 ⟨hz, hat⟩)
        · by_contra hnz
          exact h1 ⟨Nat.pos_of_ne_zero hnz, hfa⟩

theorem invS_write (s : Writer) (p : List Nat) (f : Bool) (h : InvS s) :
    InvS ((s.write p f).2.2) := by
  obtain ⟨hwf, herr, hgood⟩ := h
  cases hw : s.err with
  | some e =>
    rw [Writer.write_deferred s p f e hw]
    refine ⟨hwf, fun hne => absurd rfl hne, fun hg => ?_⟩
    exact absurd hg.1 (herr (by rw [hw]; simp))
  | none =>
    cases hr : (s.bwRes p).2.1 with
    | some e =>
      rw [Writer.write_bwerr s p f e hw hr]
      refine ⟨hwf, fun hne => absurd hw hne, fun hg => ?_⟩
      exfalso
      rcases Writer.bwRes_err s p with hbe | ⟨hbw, hnone⟩
      · rw [hr] at hbe
        have hge : ((s.bwRes p).2.2).err = none := hg.1
        exact absurd (hbe.trans hge) (by simp)
      · rw [hnone] at hr
        simp at hr
    | none =>
      by_cases hc : f = true ∨ s.delay = 0
      · rcases hfl : BW.Flush (s.bwRes p).2.2 with ⟨eo, bw⟩
        cases eo with
        | some e =>
          rw [Writer.write_flusherr s p f e bw hw hr hc hfl]
          refine ⟨hwf, fun hne => absurd hw hne, fun hg => ?_⟩
          exfalso
          have h1 : (BW.Flush (s.bwRes p).2.2).1 = some e := by rw [hfl]
          have h2 := BW.Flush_err_sticky (s.bwRes p).2.2 e h1
          rw [hfl] at h2
          have hge : bw.err = none := hg.1
          exact absurd (h2.symm.trans hge) (by simp)
        | none =>
          rw [Writer.write_flushok s p f bw hw hr hc hfl]
          exact invS_writeTail _ _ _ hwf (fun hne => absurd hw hne)
      · rw [Writer.write_noflush s p f hw hr hc]
        exact invS_writeTail _ _ _ hwf (fun hne => absurd hw hne)

theorem invS_step (s : Writer) (op : Op) (h : InvS s) : InvS (step s op) := by
  cases op with
  | write p => exact invS_write s p false h
  | flush => exact invS_write s [] true h
  | writeAndFlush p => exact invS_write s p true h
  | setMaxDelay d =>
    exact ⟨h.1, h.2.1, fun hg => h.2.2 hg⟩
  | fire =>
    show InvS (if s.timer = TimerState.pending then { s with timer := TimerState.fired } else s)
    split
    · next ht =>
      refine ⟨?_, h.2.1, fun hg => absurd rfl hg.2⟩
      constructor
      · intro hfa
        have := h.1.mp hfa
        rw [ht] at this
        exact absurd this (by simp)
      · intro habs; exact absurd habs (by simp)
    · exact h
  | runCallback =>
    show InvS (if s.timer = TimerState.fired then
        Writer.flushCB { s with timer := TimerState.idle } else s)
    split
    · next ht =>
      refine ⟨by simp [WF, Writer.flushCB], ?_, ?_⟩
      · intro hne
        have hne2 : (if (BW.Flush s.writer).1 ≠ none ∧ s.err = none
            then (BW.Flush s.writer).1 else s.err) ≠ none := hne
        by_cases hcond : (BW.Flush s.writer).1 ≠ none ∧ s.err = none
        · obtain ⟨e, he⟩ := Option.ne_none_iff_exists'.mp hcond.1
          have hst := BW.Flush_err_sticky s.writer e he
          show ((BW.Flush s.writer).2).err ≠ none
          rw [hst]; exact Option.some_ne_none e
        · rw [if_neg hcond] at hne2
          obtain ⟨e, he⟩ := Option.ne_none_iff_exists'.mp (h.2.1 hne2)
          have h1 : (BW.Flush s.writer).1 = some e := by rw [BW.Flush_sticky s.writer e he]
          have h2 := BW.Flush_err_sticky s.writer e h1
          show ((BW.Flush s.writer).2).err ≠ none
          rw [h2]; exact Option.some_ne_none e
      · intro hg
        refine ⟨fun hat => by simp [Writer.flushCB] at hat, fun _ => ?_⟩
        cases hfe : (BW.Flush s.writer).1 with
        | none =>
          have := BW.Flush_none_buf s.writer hfe
          show ((BW.Flush s.writer).2).buf.length = 0
          rw [this]; rfl
        | some e =>
          exfalso
          have hst := BW.Flush_err_sticky s.writer e hfe
          have hge : ((BW.Flush s.writer).2).err = none := hg.1
          exact absurd (hst.symm.trans hge) (by simp)
    · exact h

theorem invS_init (sk : Sink) (size d : Nat) : InvS (newWriter sk size d) := by
  refine ⟨by simp [WF, newWriter], fun hne => absurd rfl hne,
    fun _ => ⟨fun hat => by simp [newWriter] at hat, fun _ => rfl⟩⟩

theorem invS_run (sk : Sink) (size d : Nat) (ops : List Op) :
    InvS (run (newWriter sk size d) ops) := by
  have h0 := invS_init sk size d
  generalize newWriter sk size d = s at h0 ⊢
  induction ops generalizing s with
  | nil => exact h0
  | cons op ops ih => exact ih (step s op) (invS_step s op h0)

/-- C8: over any sequence of operations on a freshly created writer, the bytes
delivered to the sink followed by the bytes still buffered are exactly the
concatenation, in acceptance order, of all byte sequences the writer accepted:
the sink contents are always a prefix of that concatenation and the buffered
bytes are the matching suffix, so no byte is reordered, duplicated or dropped. -/
theorem order_preservation (sched : List (Option Err)) (size d : Nat) (ops : List Op) :
    (run (newWriter ⟨sched, 0, []⟩ size d) ops).writer.sink.received ++
      (run (newWriter ⟨sched, 0, []⟩ size d) ops).writer.buf =
    runAccepted (newWriter ⟨sched, 0, []⟩ size d) ops := by
  have h := run_trace (newWriter ⟨sched, 0, []⟩ size d) ops
  unfold Writer.trace BW.trace at h
  simpa [newWriter, BW.new] using h

/-- C3 counterexample: in stateC3 the queue counter reads 2 — by the claim a
prior callback invocation is still outstanding beyond a single pending
instance — yet the timer-fired callback still flushes the buffer to the sink
and increments the executed counter instead of returning without touching
anything (and the statistics carry no skipped or dropped counter at all). -/
theorem callback_inflight_cex :
    stateC3.queue = 2 ∧ stateC3.writer.buf = [7] ∧
    (step stateC3 Op.runCallback).writer.buf = [] ∧
    (step stateC3 Op.runCallback).writer.sink.received = [7] ∧
    (step stateC3 Op.runCallback).executed = stateC3.executed + 1 := by
  decide

/-- C3 amended: the timer-fired callback of the current code performs no
in-flight check whatsoever: it never reads or writes the vestigial queue
field — the result is independent of it — and it unconditionally increments
the executed counter, clears the armed flag and flushes the accumulator. -/
theorem callback_unconditional (s : Writer) :
    (s.flushCB).queue = s.queue ∧
    (s.flushCB).executed = s.executed + 1 ∧
    (s.flushCB).armed = false ∧
    (s.flushCB).writer = (BW.Flush s.writer).2 ∧
    (∀ q : Nat, Writer.flushCB { s with queue := q } = { s.flushCB with queue := q }) :=
  ⟨rfl, rfl, rfl, rfl, fun _ => rfl⟩

/-- C4: for the accumulator-level Write helper over a non-erroring sink (no
sticky error recorded), the returned forced-flush flag is true exactly when
the returned count of accepted bytes exceeds the bytes available before the
call began, and a zero-length write is a no-op returning (0, false, nil). -/
theorem acc_write_flag (w : BW) (p : List Nat) (hw : w.err = none) :
    ((Write w p).2.1 = true ↔ (Write w p).1 > w.Available) ∧
    Write w [] = (0, false, none, w) := by
  constructor
  · exact decide_eq_true_iff
  · have h : w.writeB [] = (0, none, w) := by
      obtain ⟨werr, wsize, wbuf, wsink⟩ := w
      replace hw : werr = none := hw
      subst hw
      show BW.writeGo 4 _ [] = _
      unfold BW.writeGo BW.writeFin
      simp
    unfold Write
    rw [h]
    simp

/-- C4 witness: the theorem applied to a two-byte accumulator holding one byte
and a three-byte payload. -/
theorem acc_write_flag_witness :
    ((Write bwC4 [9, 9, 9]).2.1 = true ↔ (Write bwC4 [9, 9, 9]).1 > bwC4.Available) ∧
    Write bwC4 [] = (0, false, none, bwC4) :=
  acc_write_flag bwC4 [9, 9, 9] rfl

/-- C1: the deferred error slot is a one-slot exactly-once mailbox: a pending
error is returned verbatim by the very next write/flush/writeAndFlush call,
which changes nothing but the slot itself (buffer, timer, flags, counters are
untouched) and clears it so an immediately following call cannot report it
again; and the timer-fired callback stores a flush error only into an empty
slot — the first error wins, a second background error before delivery is
discarded. -/
theorem deferred_error_mailbox (w u v : Writer) (p : List Nat) (f : Bool) (e e0 e1 : Err)
    (hw : w.err = some e) (hu : u.err = some e0)
    (hv : v.err = none) (hf : (BW.Flush v.writer).1 = some e1) :
    w.write p f = (0, some e, { w with err := none }) ∧
    ({ w with err := none }).err = none ∧
    (u.flushCB).err = some e0 ∧
    (v.flushCB).err = some e1 := by
  refine ⟨Writer.write_deferred w p f e hw, rfl, ?_, ?_⟩
  · show (if (BW.Flush u.writer).1 ≠ none ∧ u.err = none
        then (BW.Flush u.writer).1 else u.err) = some e0
    rw [if_neg (by rw [hu]; simp), hu]
  · show (if (BW.Flush v.writer).1 ≠ none ∧ v.err = none
        then (BW.Flush v.writer).1 else v.err) = some e1
    rw [if_pos ⟨by rw [hf]; exact Option.some_ne_none e1, hv⟩, hf]

/-- C1 witness: the theorem applied to a writer holding a deferred error (for
delivery and for the occupied-slot case) and to a writer with an empty slot
over a failing sink (for the stores-first-error case). -/
theorem deferred_error_mailbox_witness :
    stateErr.write [1] false = (0, some (Err.sinkErr 7), { stateErr with err := none }) ∧
    ({ stateErr with err := none }).err = none ∧
    (stateErr.flushCB).err = some (Err.sinkErr 7) ∧
    (stateC1v.flushCB).err = some (Err.sinkErr 0) :=
  deferred_error_mailbox stateErr stateErr stateC1v [1] false
    (Err.sinkErr 7) (Err.sinkErr 7) (Err.sinkErr 0) rfl rfl rfl (by decide)

/-- C2 counterexample: WriteAndFlush [1] over a sink that fails the first
write, on a fresh writer with delay 3, returns a synchronous sink error and
leaves the writer unarmed with one byte still buffered and a nonzero delay —
the claimed invariant "armed = false implies zero buffered bytes or zero
delay" therefore does not survive an operation that returns a synchronous
sink error. -/
theorem state_invariant_cex :
    ((newWriter failSink 4 3).write [1] true).2.1 = some (Err.sinkErr 0) ∧
    stateC2.armed = false ∧ stateC2.writer.buf = [1] ∧ stateC2.delay = 3 ∧
    ¬ (stateC2.armed = false → stateC2.writer.buf.length = 0 ∨ stateC2.delay = 0) := by
  decide

/-- C2 amended: the occupancy invariant is maintained in every reachable
quiescent error-free state, but not across sink errors: after any operation
sequence from a fresh writer, whenever no sticky accumulator error is
recorded and the timer is not in the fired-but-unhandled state, armed implies
more than zero buffered bytes, and unarmed implies zero buffered bytes (in
particular zero buffered bytes or a zero delay). -/
theorem state_invariant_amended (sk : Sink) (size d : Nat) (ops : List Op) :
    GoodW (run (newWriter sk size d) ops) →
      ((run (newWriter sk size d) ops).armed = true →
        0 < (run (newWriter sk size d) ops).writer.buf.length) ∧
      ((run (newWriter sk size d) ops).armed = false →
        (run (newWriter sk size d) ops).writer.buf.length = 0 ∨
          (run (newWriter sk size d) ops).delay = 0) := by
  intro hg
  have h := (invS_run sk size d ops).2.2 hg
  exact ⟨h.1, fun hfa => Or.inl (h.2 hfa)⟩

/-- C2 amended witness: the theorem applied after a single Write of one byte
on a fresh writer over the good sink. -/
theorem state_invariant_amended_witness :
    ((run (newWriter goodSink 4 3) [Op.write [1]]).armed = true →
      0 < (run (newWriter goodSink 4 3) [Op.write [1]]).writer.buf.length) ∧
    ((run (newWriter goodSink 4 3) [Op.write [1]]).armed = false →
      (run (newWriter goodSink 4 3) [Op.write [1]]).writer.buf.length = 0 ∨
        (run (newWriter goodSink 4 3) [Op.write [1]]).delay = 0) :=
  state_invariant_amended goodSink 4 3 [Op.write [1]] (by decide)

/-- C6: every WriteAndFlush call that returns without error leaves all
previously buffered bytes followed by every byte it accepted visible at the
sink before returning, with zero bytes left buffered, whatever the configured
delay; the executed counter is unchanged. -/
theorem writeAndFlush_visible (s : Writer) (p : List Nat)
    (hok : (s.WriteAndFlush p).2.1 = none) :
    ((s.WriteAndFlush p).2.2).writer.buf = [] ∧
    ((s.WriteAndFlush p).2.2).writer.sink.received =
      s.writer.sink.received ++ s.writer.buf ++ p.take (s.WriteAndFlush p).1 ∧
    ((s.WriteAndFlush p).2.2).executed = s.executed := by
  have hbe : ((s.write p true).2.2).writer.buf = [] ∧
      ((s.write p true).2.2).executed = s.executed := by
    cases hw : s.err with
    | some e =>
      rw [Writer.WriteAndFlush, Writer.write_deferred s p true e hw] at hok
      simp at hok
    | none =>
      cases hr : (s.bwRes p).2.1 with
      | some e =>
        rw [Writer.WriteAndFlush, Writer.write_bwerr s p true e hw hr] at hok
        simp at hok
      | none =>
        have hc : true = true ∨ s.delay = 0 := Or.inl rfl
        rcases hfl : BW.Flush (s.bwRes p).2.2 with ⟨eo, bw⟩
        cases eo with
        | some e =>
          rw [Writer.WriteAndFlush, Writer.write_flusherr s p true e bw hw hr hc hfl] at hok
          simp at hok
        | none =>
          rw [Writer.write_flushok s p true bw hw hr hc hfl]
          rcases Writer.writeTail_frame { s with writer := bw } (s.bwRes p).1 true with
            ⟨h1, _, h3, _, h5, _⟩
          constructor
          · rw [h3]
            have hfe : (BW.Flush (s.bwRes p).2.2).1 = none := by rw [hfl]
            have hnb := BW.Flush_none_buf (s.bwRes p).2.2 hfe
            rw [hfl] at hnb
            exact hnb
          · rw [h5]
  have ht := Writer.write_trace s p true
  unfold Writer.trace BW.trace at ht
  rw [hbe.1, List.append_nil] at ht
  exact ⟨hbe.1, ht, hbe.2⟩

/-- C6 witness: writeAndFlush {1} then writeAndFlush {2} on a fresh writer —
the theorem applied to the second call, together with the concrete sink
contents {1, 2} and the untouched executed counter. -/
theorem writeAndFlush_visible_witness :
    (((stateWAF1.WriteAndFlush [2]).2.2).writer.buf = [] ∧
      ((stateWAF1.WriteAndFlush [2]).2.2).writer.sink.received =
        stateWAF1.writer.sink.received ++ stateWAF1.writer.buf ++
          [2].take (stateWAF1.WriteAndFlush [2]).1 ∧
      ((stateWAF1.WriteAndFlush [2]).2.2).executed = stateWAF1.executed) ∧
    ((stateWAF1.WriteAndFlush [2]).2.2).writer.sink.received = [1, 2] ∧
    ((stateWAF1.WriteAndFlush [2]).2.2).executed = 0 :=
  ⟨writeAndFlush_visible stateWAF1 [2] (by decide), by decide, by decide⟩

/-- C9: when the timer-fired callback runs and the accumulator flush fails,
the writer is left unarmed, the timer retired with no new timer armed, the
unflushed bytes still buffered and invisible at the sink, the executed
counter nonetheless incremented, and the error stored in the deferred slot
exactly when that slot was empty. -/
theorem callback_error_path (s : Writer) (e : Err)
    (ht : s.timer = TimerState.fired)
    (hf : (BW.Flush s.writer).1 = some e) :
    (step s Op.runCallback).armed = false ∧
    (step s Op.runCallback).timer = TimerState.idle ∧
    (step s Op.runCallback).writer.buf = s.writer.buf ∧
    (step s Op.runCallback).writer.sink.received = s.writer.sink.received ∧
    (step s Op.runCallback).executed = s.executed + 1 ∧
    (step s Op.runCallback).err = (if s.err = none then some e else s.err) := by
  have hstep : step s Op.runCallback = Writer.flushCB { s with timer := TimerState.idle } := by
    show (if s.timer = TimerState.fired then _ else s) = _
    rw [if_pos ht]
  rw [hstep]
  obtain ⟨hb, hrec⟩ := BW.Flush_err_frame s.writer e hf
  refine ⟨rfl, rfl, hb, hrec, rfl, ?_⟩
  show (if (BW.Flush s.writer).1 ≠ none ∧ s.err = none
      then (BW.Flush s.writer).1 else s.err) = if s.err = none then some e else s.err
  cases hse : s.err with
  | none =>
    rw [if_pos ⟨by rw [hf]; exact Option.some_ne_none e, rfl⟩, hf, if_pos rfl]
  | some e0 =>
    rw [if_neg (by simp), if_neg (by simp)]

/-- C9 witness: the theorem applied to an armed writer over a failing sink
whose timer has fired while one byte is buffered. -/
theorem callback_error_path_witness :
    (step stateC9 Op.runCallback).armed = false ∧
    (step stateC9 Op.runCallback).timer = TimerState.idle ∧
    (step stateC9 Op.runCallback).writer.buf = stateC9.writer.buf ∧
    (step stateC9 Op.runCallback).writer.sink.received = stateC9.writer.sink.received ∧
    (step stateC9 Op.runCallback).executed = stateC9.executed + 1 ∧
    (step stateC9 Op.runCallback).err =
      (if stateC9.err = none then some (Err.sinkErr 0) else stateC9.err) :=
  callback_error_path stateC9 (Err.sinkErr 0) (by decide) (by decide)

theorem Writer.writeTail_arm (w : Writer) (n : Nat) (fl : Bool)
    (h : w.writer.Buffered > 0 ∧ w.armed = false) :
    w.writeTail n fl = (n, none,
      { w with
          initiated := w.initiated + 1,
          timer := TimerState.pending, armed := true }) := by
  unfold Writer.writeTail; dsimp only; rw [if_pos h]

theorem Writer.writeTail_clear_stop (w : Writer) (n : Nat) (fl : Bool)
    (h1 : ¬ (w.writer.Buffered > 0 ∧ w.armed = false))
    (h2 : w.writer.Buffered = 0 ∧ w.armed = true)
    (ht : w.timer = TimerState.pending) :
    w.writeTail n fl = (n, none,
      { w with
          cancelled := w.cancelled + 1,
          timer := TimerState.idle, armed := false }) := by
  unfold Writer.writeTail; dsimp only; rw [if_neg h1, if_pos h2, if_pos ht]

theorem Writer.writeTail_clear_miss (w : Writer) (n : Nat) (fl : Bool)
    (h1 : ¬ (w.writer.Buffered > 0 ∧ w.armed = false))
    (h2 : w.writer.Buffered = 0 ∧ w.armed = true)
    (ht : ¬ w.timer = TimerState.pending) :
    w.writeTail n fl = (n, none, w) := by
  unfold Writer.writeTail; dsimp only; rw [if_neg h1, if_pos h2, if_neg ht]

theorem Writer.writeTail_ext_stop (w : Writer) (n : Nat) (fl : Bool)
    (h1 : ¬ (w.writer.Buffered > 0 ∧ w.armed = false))
    (h2 : ¬ (w.writer.Buffered = 0 ∧ w.armed = true))
    (h3 : fl = true ∧ w.armed = true)
    (ht : w.timer = TimerState.pending) :
    w.writeTail n fl = (n, none,
      { w with
          extended := w.extended + 1,
          timer := TimerState.pending }) := by
  unfold Writer.writeTail; dsimp only; rw [if_neg h1, if_neg h2, if_pos h3, if_pos ht]

theorem Writer.writeTail_ext_miss (w : Writer) (n : Nat) (fl : Bool)
    (h1 : ¬ (w.writer.Buffered > 0 ∧ w.armed = false))
    (h2 : ¬ (w.writer.Buffered = 0 ∧ w.armed = true))
    (h3 : fl = true ∧ w.armed = true)
    (ht : ¬ w.timer = TimerState.pending) :
    w.writeTail n fl = (n, none, w) := by
  unfold Writer.writeTail; dsimp only; rw [if_neg h1, if_neg h2, if_pos h3, if_neg ht]

theorem Writer.writeTail_none (w : Writer) (n : Nat) (fl : Bool)
    (h1 : ¬ (w.writer.Buffered > 0 ∧ w.armed = false))
    (h2 : ¬ (w.writer.Buffered = 0 ∧ w.armed = true))
    (h3 : ¬ (fl = true ∧ w.armed = true)) :
    w.writeTail n fl = (n, none, w) := by
  unfold Writer.writeTail; dsimp only; rw [if_neg h1, if_neg h2, if_neg h3]

/-- C5 counterexample: arm the timer with Write [1] at delay 3, set the delay
to zero, and let the timer fire before its callback runs; the next Write [2]
observes a configured delay of zero, flushes everything, and returns without
error — yet the armed flag stays set, because the fired timer can no longer
be stopped, so the writer is not left unarmed as the claim states. -/
theorem zero_delay_cex :
    stateC5.delay = 0 ∧
    (stateC5.write [2] false).2.1 = none ∧
    ((stateC5.write [2] false).2.2).writer.buf = [] ∧
    ((stateC5.write [2] false).2.2).armed = true := by
  decide

/-- C5 amended: a Write observing a configured delay of zero that returns
without error flushes all bytes it accepted together with all previously
buffered bytes to the sink, leaves zero bytes buffered and no timer pending;
and provided the previously armed timer had not already fired, the writer is
left unarmed with the timer idle (if it had fired, the armed flag stays set
until the outstanding callback clears it). -/
theorem zero_delay_amended (s : Writer) (p : List Nat)
    (hd : s.delay = 0) (hwf : WF s)
    (hok : (s.write p false).2.1 = none) :
    ((s.write p false).2.2).writer.buf = [] ∧
    ((s.write p false).2.2).writer.sink.received =
      s.writer.sink.received ++ s.writer.buf ++ p.take (s.write p false).1 ∧
    ¬ ((s.write p false).2.2).timer = TimerState.pending ∧
    (¬ s.timer = TimerState.fired →
      ((s.write p false).2.2).armed = false ∧
      ((s.write p false).2.2).timer = TimerState.idle) := by
  cases hw : s.err with
  | some e => rw [Writer.write_deferred s p false e hw] at hok; simp at hok
  | none =>
    cases hr : (s.bwRes p).2.1 with
    | some e => rw [Writer.write_bwerr s p false e hw hr] at hok; simp at hok
    | none =>
      have hc : false = true ∨ s.delay = 0 := Or.inr hd
      rcases hfl : BW.Flush (s.bwRes p).2.2 with ⟨eo, bw⟩
      cases eo with
      | some e => rw [Writer.write_flusherr s p false e bw hw hr hc hfl] at hok; simp at hok
      | none =>
        have hres := Writer.write_flushok s p false bw hw hr hc hfl
        have hfe : (BW.Flush (s.bwRes p).2.2).1 = none := by rw [hfl]
        have hnb := BW.Flush_none_buf (s.bwRes p).2.2 hfe
        rw [hfl] at hnb
        have hB : ({ s with writer := bw } : Writer).writer.Buffered = 0 := by
          show bw.buf.length = 0
          rw [hnb]
          rfl
        have h1 : ¬ (({ s with writer := bw } : Writer).writer.Buffered > 0 ∧
            ({ s with writer := bw } : Writer).armed = false) := by
          intro hcon
          rw [hB] at hcon
          exact absurd hcon.1 (by simp)
        have htail : ∃ t : Writer, Writer.writeTail { s with writer := bw } (s.bwRes p).1 true
              = ((s.bwRes p).1, none, t) ∧ t.writer = bw ∧
            (¬ s.timer = TimerState.fired → t.armed = false ∧ t.timer = TimerState.idle) ∧
            ¬ t.timer = TimerState.pending := by
          by_cases ha : s.armed = true
          · have h2 : ({ s with writer := bw } : Writer).writer.Buffered = 0 ∧
                ({ s with writer := bw } : Writer).armed = true := ⟨hB, ha⟩
            by_cases hts : s.timer = TimerState.pending
            · refine ⟨_, Writer.writeTail_clear_stop _ _ _ h1 h2 hts, rfl, ?_, ?_⟩
              · intro _; exact ⟨rfl, rfl⟩
              · simp
            · by_cases htf : s.timer = TimerState.fired
              · refine ⟨_, Writer.writeTail_clear_miss _ _ _ h1 h2 hts, rfl, ?_, ?_⟩
                · intro hnf; exact absurd htf hnf
                · exact hts
              · exfalso
                cases htt : s.timer with
                | pending => exact absurd htt hts
                | fired => exact absurd htt htf
                | idle =>
                  have hfa := hwf.mpr htt
                  rw [hfa] at ha
                  exact absurd ha (by simp)
          · have ha' : s.armed = false := by
              cases hA : s.armed
              · rfl
              · exact absurd hA ha
            have hid : s.timer = TimerState.idle := hwf.mp ha'
            have h2 : ¬ (({ s with writer := bw } : Writer).writer.Buffered = 0 ∧
                ({ s with writer := bw } : Writer).armed = true) := fun hcon => ha hcon.2
            have h3 : ¬ ((true : Bool) = true ∧ ({ s with writer := bw } : Writer).armed = true) :=
              fun hcon => ha hcon.2
            refine ⟨_, Writer.writeTail_none _ _ _ h1 h2 h3, rfl, ?_, ?_⟩
            · intro _; exact ⟨ha', hid⟩
            · show ¬ s.timer = TimerState.pending
              rw [hid]; simp
        obtain ⟨t, htl, htw, hcnd, hpnd⟩ := htail
        have ht := Writer.write_trace s p false
        unfold Writer.trace BW.trace at ht
        rw [hres, htl] at ht ⊢
        dsimp only at ht ⊢
        rw [htw] at ht ⊢
        rw [hnb, List.append_nil] at ht
        exact ⟨hnb, ht, hpnd, hcnd⟩

/-- C5 amended witness: the theorem applied to a single-byte Write on a fresh
writer configured with delay zero. -/
theorem zero_delay_amended_witness :
    (((newWriter goodSink 8 0).write [1] false).2.2).writer.buf = [] ∧
    (((newWriter goodSink 8 0).write [1] false).2.2).writer.sink.received =
      (newWriter goodSink 8 0).writer.sink.received ++ (newWriter goodSink 8 0).writer.buf ++
        [1].take ((newWriter goodSink 8 0).write [1] false).1 ∧
    ¬ (((newWriter goodSink 8 0).write [1] false).2.2).timer = TimerState.pending ∧
    (¬ (newWriter goodSink 8 0).timer = TimerState.fired →
      (((newWriter goodSink 8 0).write [1] false).2.2).armed = false ∧
      (((newWriter goodSink 8 0).write [1] false).2.2).timer = TimerState.idle) :=
  zero_delay_amended (newWriter goodSink 8 0) [1] rfl (by decide) (by decide)

/-- C7: a Write issued while the writer is armed that causes a forced internal
flush (accepted count exceeding the bytes available before the call) and
still leaves more than zero bytes buffered resets the pending timer to a
fresh full delay when the timer had not already fired — armed stays true, the
extended counter increments by exactly one and the other timer counters are
untouched — and performs no reset when the timer had already fired. -/
theorem reset_on_forced_flush (s : Writer) (p : List Nat)
    (hw : s.err = none) (ha : s.armed = true) (hti : ¬ s.timer = TimerState.idle)
    (hok : (s.write p false).2.1 = none)
    (hforced : (s.write p false).1 > s.writer.Available)
    (hleft : 0 < ((s.write p false).2.2).writer.buf.length) :
    ((s.write p false).2.2).armed = true ∧
    (s.timer = TimerState.pending →
      ((s.write p false).2.2).timer = TimerState.pending ∧
      ((s.write p false).2.2).extended = s.extended + 1 ∧
      ((s.write p false).2.2).cancelled = s.cancelled ∧
      ((s.write p false).2.2).initiated = s.initiated) ∧
    (s.timer = TimerState.fired →
      ((s.write p false).2.2).timer = TimerState.fired ∧
      ((s.write p false).2.2).extended = s.extended) := by
  cases hr : (s.bwRes p).2.1 with
  | some e => rw [Writer.write_bwerr s p false e hw hr] at hok; simp at hok
  | none =>
    by_cases hc : false = true ∨ s.delay = 0
    · rcases hfl : BW.Flush (s.bwRes p).2.2 with ⟨eo, bw⟩
      cases eo with
      | some e => rw [Writer.write_flusherr s p false e bw hw hr hc hfl] at hok; simp at hok
      | none =>
        exfalso
        have hres := Writer.write_flushok s p false bw hw hr hc hfl
        have hfe : (BW.Flush (s.bwRes p).2.2).1 = none := by rw [hfl]
        have hnb := BW.Flush_none_buf (s.bwRes p).2.2 hfe
        rw [hfl] at hnb
        rw [hres] at hleft
        rcases Writer.writeTail_frame { s with writer := bw } (s.bwRes p).1 true with
          ⟨_, _, h3f, _⟩
        rw [h3f] at hleft
        have hz : ({ s with writer := bw } : Writer).writer.buf.length = 0 := by
          show bw.buf.length = 0
          rw [hnb]; rfl
        rw [hz] at hleft
        exact Nat.lt_irrefl 0 hleft
    · have hres := Writer.write_noflush s p false hw hr hc
      rw [hres] at hforced hleft ⊢
      rcases Writer.writeTail_frame { s with writer := (s.bwRes p).2.2 } (s.bwRes p).1
          (decide (p.length > 0) && decide ((s.bwRes p).1 > s.writer.Available)) with
        ⟨h1f, _, h3f, _⟩
      rw [h1f] at hforced
      have hp : 0 < p.length := by
        by_contra hp0
        have hpe : p = [] := List.length_eq_zero.mp (Nat.eq_zero_of_not_pos hp0)
        subst hpe
        rw [Writer.bwRes_nil] at hforced
        exact absurd hforced (by simp)
      have hflT : (decide (p.length > 0) && decide ((s.bwRes p).1 > s.writer.Available)) = true := by
        rw [Bool.and_eq_true]
        exact ⟨decide_eq_true hp, decide_eq_true hforced⟩
      rw [h3f] at hleft
      have h1 : ¬ (({ s with writer := (s.bwRes p).2.2 } : Writer).writer.Buffered > 0 ∧
          ({ s with writer := (s.bwRes p).2.2 } : Writer).armed = false) := by
        intro hcon
        have haf : s.armed = false := hcon.2
        rw [haf] at ha
        exact absurd ha (by simp)
      have h2 : ¬ (({ s with writer := (s.bwRes p).2.2 } : Writer).writer.Buffered = 0 ∧
          ({ s with writer := (s.bwRes p).2.2 } : Writer).armed = true) := by
        intro hcon
        have hz : ({ s with writer := (s.bwRes p).2.2 } : Writer).writer.buf.length = 0 := hcon.1
        rw [hz] at hleft
        exact Nat.lt_irrefl 0 hleft
      have h3 : (decide (p.length > 0) && decide ((s.bwRes p).1 > s.writer.Available)) = true ∧
          ({ s with writer := (s.bwRes p).2.2 } : Writer).armed = true := ⟨hflT, ha⟩
      by_cases hts : s.timer = TimerState.pending
      · have htw : ({ s with writer := (s.bwRes p).2.2 } : Writer).timer = TimerState.pending := hts
        rw [Writer.writeTail_ext_stop _ _ _ h1 h2 h3 htw]
        exact ⟨ha, fun _ => ⟨rfl, rfl, rfl, rfl⟩,
          fun hfd => absurd (hts.symm.trans hfd) (by simp)⟩
      · have htf : s.timer = TimerState.fired := by
          cases htt : s.timer with
          | pending => exact absurd htt hts
          | idle => exact absurd htt hti
          | fired => rfl
        have htw : ¬ ({ s with writer := (s.bwRes p).2.2 } : Writer).timer = TimerState.pending := hts
        rw [Writer.writeTail_ext_miss _ _ _ h1 h2 h3 htw]
        exact ⟨ha, fun hpd => absurd (htf.symm.trans hpd) (by simp), fun _ => ⟨htf, rfl⟩⟩

/-- C7 witness: the theorem applied to an armed writer holding one byte in a
two-byte accumulator, written two further bytes (forcing a flush and leaving
one byte buffered). -/
theorem reset_on_forced_flush_witness :
    ((stateC7.write [9, 9] false).2.2).armed = true ∧
    (stateC7.timer = TimerState.pending →
      ((stateC7.write [9, 9] false).2.2).timer = TimerState.pending ∧
      ((stateC7.write [9, 9] false).2.2).extended = stateC7.extended + 1 ∧
      ((stateC7.write [9, 9] false).2.2).cancelled = stateC7.cancelled ∧
      ((stateC7.write [9, 9] false).2.2).initiated = stateC7.initiated) ∧
    (stateC7.timer = TimerState.fired →
      ((stateC7.write [9, 9] false).2.2).timer = TimerState.fired ∧
      ((stateC7.write [9, 9] false).2.2).extended = stateC7.extended) :=
  reset_on_forced_flush stateC7 [9, 9] (by decide) (by decide) (by decide)
    (by decide) (by decide) (by decide)

/-- C10 counterexample: after a direct-write failure on a size-1 accumulator
the writer has zero buffered bytes, no pending deferred error and a nonzero
configured delay, yet Flush returns the recorded sticky accumulator error
instead of nil. -/
theorem empty_noop_cex :
    stateC10.writer.buf = [] ∧ stateC10.err = none ∧ stateC10.delay = 3 ∧
    stateC10.armed = false ∧
    (stateC10.Flush).1 = some (Err.sinkErr 0) := by
  decide

/-- C10 amended: Write with an empty payload and Flush are no-ops returning
(0, nil) resp. nil on a writer with zero buffered bytes, no pending deferred
error, no recorded sticky accumulator error, a nonzero configured delay, and
no armed still-pending timer (a combination impossible with an empty buffer
in reachable error-free states): the state is returned unchanged, so no byte
reaches the sink, no timer is armed or cancelled, the armed flag keeps its
value and no statistics counter moves. -/
theorem empty_noop_amended (s : Writer)
    (hb : s.writer.buf = []) (he : s.err = none) (hst : s.writer.err = none)
    (hd : ¬ s.delay = 0) (hnp : ¬ (s.armed = true ∧ s.timer = TimerState.pending)) :
    s.Write [] = (0, none, s) ∧ s.Flush = (none, s) := by
  have hr : (s.bwRes []).2.1 = none := by rw [Writer.bwRes_nil]
  have hb0 : s.writer.Buffered = 0 := by
    show s.writer.buf.length = 0
    rw [hb]; rfl
  have h1 : ¬ (s.writer.Buffered > 0 ∧ s.armed = false) := by
    intro hcon
    rw [hb0] at hcon
    exact absurd hcon.1 (by simp)
  have htail : ∀ fl : Bool, Writer.writeTail s 0 fl = (0, none, s) := by
    intro fl
    by_cases ha : s.armed = true
    · have h2 : s.writer.Buffered = 0 ∧ s.armed = true := ⟨hb0, ha⟩
      have hts : ¬ s.timer = TimerState.pending := fun hcon => hnp ⟨ha, hcon⟩
      exact Writer.writeTail_clear_miss s 0 fl h1 h2 hts
    · have h2 : ¬ (s.writer.Buffered = 0 ∧ s.armed = true) := fun hcon => ha hcon.2
      have h3 : ¬ (fl = true ∧ s.armed = true) := fun hcon => ha hcon.2
      exact Writer.writeTail_none s 0 fl h1 h2 h3
  have hW : s.write [] false = (0, none, s) := by
    have hc : ¬ (false = true ∨ s.delay = 0) := by
      intro hcon
      cases hcon with
      | inl h => exact absurd h (by simp)
      | inr h => exact hd h
    rw [Writer.write_noflush s [] false he hr hc]
    show Writer.writeTail s 0 false = (0, none, s)
    exact htail false
  have hF : s.write [] true = (0, none, s) := by
    have hfl : BW.Flush (s.bwRes []).2.2 = (none, s.writer) := by
      rw [Writer.bwRes_nil]
      exact BW.Flush_empty s.writer hst (by rw [hb]; rfl)
    rw [Writer.write_flushok s [] true s.writer he hr (Or.inl rfl) hfl]
    show Writer.writeTail s 0 true = (0, none, s)
    exact htail true
  constructor
  · exact hW
  · show ((s.write [] true).2.1, (s.write [] true).2.2) = (none, s)
    rw [hF]

/-- C10 amended witness: the theorem applied to a freshly created writer over
the good sink with delay 3. -/
theorem empty_noop_amended_witness :
    (newWriter goodSink 4 3).Write [] = (0, none, newWriter goodSink 4 3) ∧
    (newWriter goodSink 4 3).Flush = (none, newWriter goodSink 4 3) :=
  empty_noop_amended (newWriter goodSink 4 3) rfl rfl rfl (by decide) (by decide)

end Mercury
